import Mathlib

/-!
Verification of the interactive controller of `aianvil-tui`
(`src/ui/mod.rs`): the panel focus state machine, the token-count
dispatcher and result aggregator, the reload and merge pipelines, and the
key-event `update` routine, shallowly embedded in Lean 4.

External collaborators (text source, tokenizer, writer, clipboard) appear
as parameters, matching the capability interfaces of the spec.  Behaviours
implemented in repository files that are absent from the source tree
(`src/ui/source_files.rs`, `src/ui/filters.rs`, `src/ui/output.rs`, ...)
are modelled from the spec and marked as such in their doc comments.
-/

set_option autoImplicit false

namespace Aianvil
/-- The five focusable UI regions, from `enum FocusedPanel` in
`src/ui/mod.rs`. -/
inductive FocusedPanel where
  | SourcePath
  | Filters
  | SourceFiles
  | Output
  | OutputFile
deriving DecidableEq

/-- Output destinations.  The enum `OutputDestination` is declared in
`src/ui/output.rs` (absent from the tree); its three variants `File`,
`Clipboard`, `FileAndClipboard` are fixed by the spec's data model and by
the `match` arms of `src/ui/mod.rs`. -/
inductive OutputDestination where
  | File
  | Clipboard
  | FileAndClipboard
deriving DecidableEq

/-- Embedding of `FocusedPanel::next_panel` (`src/ui/mod.rs:32`).  The Rust
method takes `&App` but reads only `app.output_panel.destination`, which is
the `dest` argument here. -/
def FocusedPanel.next_panel (p : FocusedPanel) (dest : OutputDestination) :
    FocusedPanel :=
  match p with
  | .SourcePath => .Filters
  | .Filters => .SourceFiles
  | .SourceFiles => .Output
  | .Output =>
      if dest = OutputDestination.Clipboard then .SourcePath else .OutputFile
  | .OutputFile => .SourcePath

/-- Embedding of `FocusedPanel::prev_panel` (`src/ui/mod.rs:47`).  The
`OutputFile` arm keeps the source's conditional with two identical
branches. -/
def FocusedPanel.prev_panel (p : FocusedPanel) (dest : OutputDestination) :
    FocusedPanel :=
  match p with
  | .SourcePath => .OutputFile
  | .Filters => .SourcePath
  | .SourceFiles => .Filters
  | .Output => .SourceFiles
  | .OutputFile =>
      if dest = OutputDestination.Clipboard then .Output else .Output

/-- Per-file token-count lifecycle, from `TokenStatus` declared in
`src/ui/source_files.rs` (absent from the tree); the four variants are
fixed by the spec's data model (§3). -/
inductive TokenStatus where
  | NotCounted
  | Counting
  | Counted (n : Nat)
  | Failed (msg : String)
deriving DecidableEq

/-- A loaded file.  `SourceFile` is declared in the out-of-scope input
module; only its `path` field (the unique key) is read by the controller
code under verification. -/
structure SourceFile where
  path : String
deriving DecidableEq

/-- The `file_token_status` mapping of `SourceFilesPanel`, keyed by path,
embedded as an association list. -/
abbrev StatusMap := List (String × TokenStatus)

/-- First-match lookup in the status mapping. -/
def statusLookup (m : StatusMap) (p : String) : Option TokenStatus :=
  match m with
  | [] => none
  | e :: rest => if e.1 = p then some e.2 else statusLookup rest p

/-- Overwrite the status stored for one path, leaving other entries and
all keys unchanged. -/
def setStatus (m : StatusMap) (p : String) (t : TokenStatus) : StatusMap :=
  m.map (fun e => if e.1 = p then (e.1, t) else e)

/-- Modelled from the spec: `SourceFilesPanel::set_counting`
(`src/ui/source_files.rs`, absent from the tree) marks the status of one
path as `Counting` — spec §4.2: mark status `Counting` immediately. -/
def set_counting (m : StatusMap) (p : String) : StatusMap :=
  setStatus m p TokenStatus.Counting

/-- The terminal status carried by one channel message, from the `Ok`/`Err`
cases of the result sent by the background task (`src/ui/mod.rs:431`). -/
def resultStatus (res : Except String Nat) : TokenStatus :=
  match res with
  | .ok n => TokenStatus.Counted n
  | .error s => TokenStatus.Failed s

/-- Modelled from the spec: `SourceFilesPanel::set_count_result`
(`src/ui/source_files.rs`, absent from the tree) applies one `(path,
result)` message as a status transition keyed by path and ignores messages
whose path is not present in the current loaded set — spec §4.3. -/
def set_count_result (m : StatusMap) (p : String)
    (res : Except String Nat) : StatusMap :=
  if (statusLookup m p).isSome then setStatus m p (resultStatus res) else m

/-- Embedding of the drain loop of `App::process_token_count_results`
(`src/ui/mod.rs:449`): the messages currently queued on the channel are
applied in order via `set_count_result`. -/
def process_token_count_results (m : StatusMap)
    (msgs : List (String × Except String Nat)) : StatusMap :=
  msgs.foldl (fun acc msg => set_count_result acc msg.1 msg.2) m

/-- Modelled from the spec: `SourceFilesPanel::update_title_sum`
(`src/ui/source_files.rs`, absent from the tree) recomputes the aggregate
as the sum of `Counted` values over the selected files; `NotCounted`,
`Counting` and `Failed` contribute zero — spec §3 invariant and §4.3. -/
def aggregateSum (m : StatusMap) (selected : List String) : Nat :=
  selected.foldl
    (fun acc p =>
      match statusLookup m p with
      | some (TokenStatus.Counted n) => acc + n
      | _ => acc)
    0

/-- The visible effect of one pass of the dispatcher: the updated status
mapping together with the paths for which a background task was spawned
(`tokio::spawn` calls recorded in order). -/
structure DispatchResult where
  status : StatusMap
  spawned : List String
deriving DecidableEq

/-- One iteration of the dispatch loop body of
`App::start_token_count_for_selected_files` (`src/ui/mod.rs:420`): if the
path's status is `NotCounted`, mark it `Counting`, then spawn a task only
when a loaded file with that path exists. -/
def dispatchStep (loaded : List SourceFile) (acc : DispatchResult)
    (p : String) : DispatchResult :=
  if statusLookup acc.status p = some TokenStatus.NotCounted then
    let st := set_counting acc.status p
    match loaded.find? (fun f => f.path = p) with
    | some _ => { status := st, spawned := acc.spawned ++ [p] }
    | none => { status := st, spawned := acc.spawned }
  else acc

/-- Embedding of `App::start_token_count_for_selected_files`
(`src/ui/mod.rs:415`): return immediately when no text source is held,
otherwise run the loop body over the selected paths. -/
def start_token_count_for_selected_files (hasSource : Bool)
    (selected : List String) (loaded : List SourceFile)
    (status : StatusMap) : DispatchResult :=
  if hasSource then
    selected.foldl (dispatchStep loaded) { status := status, spawned := [] }
  else
    { status := status, spawned := [] }

/-- Number of times a path occurs in a spawn list. -/
def pathOcc (p : String) (l : List String) : Nat :=
  (l.filter (fun x => x = p)).length

/-- Embedding of the background task body spawned at `src/ui/mod.rs:428`:
fetch the file content, on success run the tokenizer, convert either
failure into the `Err` payload, and send exactly one `(path, result)`
message on the channel.  The text source fetch and the tokenizer are the
external collaborators `fetchResult` and `countFn`. -/
def tokenCountTask (p : String) (fetchResult : Except String String)
    (countFn : String → Except String Nat) :
    List (String × Except String Nat) :=
  let final_res : Except String Nat :=
    match fetchResult with
    | .ok content =>
        match countFn content with
        | .ok n => .ok n
        | .error e => .error e
    | .error e => .error e
  [(p, final_res)]

/-- Controller state: the fields of `struct App` (`src/ui/mod.rs:64`) that
the verified code reads or writes.  Panel sub-state read by the controller
is inlined (`source_path_panel.value`/`cursor_pos`,
`output_file_panel.value`/`cursor_pos`, `output_panel.destination`);
`text_source` records only whether a handle is held; `spawned_tasks`
records the paths passed to `tokio::spawn` so far. -/
structure AppState where
  focused_panel : FocusedPanel
  source_path_value : String
  source_path_cursor : Nat
  output_file_value : String
  output_file_cursor : Nat
  destination : OutputDestination
  loaded_files : List SourceFile
  selected_extensions : List String
  selected_files : List String
  file_token_status : StatusMap
  processing : Bool
  text_source : Option Unit
  exit_requested : Bool
  reload_files_needed : Bool
  merge_needed : Bool
  prev_source_path : String
  spawned_tasks : List String

/-- Extension of a path: the text after its last dot. -/
def pathExt (p : String) : String :=
  (p.splitOn ".").getLastD ""

/-- Modelled from the spec: `FiltersPanel::init_values`
(`src/ui/filters.rs`, absent from the tree) rebuilds the selected
extensions on reload; an extension carried by no file of the new loaded
list is dropped — spec §4.4. -/
def init_values_extensions (loaded : List SourceFile)
    (selExt : List String) : List String :=
  selExt.filter (fun x => loaded.any (fun f => pathExt f.path = x))

/-- Modelled from the spec: the selected-files part of
`FiltersPanel::init_values` and `SourceFilesPanel::init_values`
(`src/ui/filters.rs` and `src/ui/source_files.rs`, absent from the tree):
any selected path not in the new loaded list is dropped — spec §4.4. -/
def init_values_files (loaded : List SourceFile)
    (selFiles : List String) : List String :=
  selFiles.filter (fun p => loaded.any (fun f => f.path = p))

/-- Modelled from the spec: the per-file status part of
`SourceFilesPanel::init_values` (`src/ui/source_files.rs`, absent from the
tree): every path of the new loaded list starts at `NotCounted` —
spec §4.4 and §3. -/
def init_values_status (loaded : List SourceFile) : StatusMap :=
  loaded.map (fun f => (f.path, TokenStatus.NotCounted))

/-- Embedding of `App::reload_files_immediate` (`src/ui/mod.rs:346`).  The
outcomes of the external calls `create_text_source(&path)` and
`get_file_index(&self.filter_config)` are the parameters `createResult`
and `indexResult`; the trailing `init_values` calls are the spec-modelled
rebuild of derived selection state. -/
def reload_files_immediate (createResult : Except String Unit)
    (indexResult : Except String (List SourceFile))
    (s : AppState) : AppState :=
  let s0 := { s with reload_files_needed := false }
  let s1 :=
    match createResult with
    | .ok _ =>
        let sA := { s0 with text_source := some () }
        match indexResult with
        | .ok files => { sA with loaded_files := files }
        | .error _ => { sA with loaded_files := [] }
    | .error _ => { s0 with text_source := none, loaded_files := [] }
  { s1 with
    selected_extensions :=
      init_values_extensions s1.loaded_files s1.selected_extensions,
    selected_files := init_values_files s1.loaded_files s1.selected_files,
    file_token_status := init_values_status s1.loaded_files }

/-- One merge run as observed from outside: the subset handed to the
writer, the writer result the controller saw, and whether and how the
clipboard copy was attempted. -/
structure MergeRecord where
  files_map : List (String × SourceFile)
  write_result : Except String String
  clipboard_attempted : Bool
  clipboard_result : Option (Except String Unit)

/-- Embedding of `App::merge_immediate` (`src/ui/mod.rs:374`).  The
external writer `write_merged` and clipboard sink `copy_clipboard` are the
parameters `writeResult` and `clipboardResult`; the clipboard sink is
consulted only in the branch where the source calls it, and its result is
discarded (`let _ = copy_clipboard(merged)`). -/
def merge_immediate (writeResult : Except String String)
    (clipboardResult : Except String Unit)
    (s : AppState) : AppState × MergeRecord :=
  let s0 := { s with merge_needed := false }
  let files_map :=
    (s.loaded_files.filter
      (fun f => s.selected_files.contains f.path)).map
      (fun f => (f.path, f))
  match writeResult with
  | .ok merged =>
      if s.destination = OutputDestination.FileAndClipboard then
        (s0, { files_map := files_map, write_result := .ok merged,
               clipboard_attempted := true,
               clipboard_result := some clipboardResult })
      else
        (s0, { files_map := files_map, write_result := .ok merged,
               clipboard_attempted := false, clipboard_result := none })
  | .error e =>
      (s0, { files_map := files_map, write_result := .error e,
             clipboard_attempted := false, clipboard_result := none })

/-- The key codes distinguished by `App::update` (`src/ui/mod.rs:223`):
function keys, `Esc`, `Enter`, characters, and a stand-in for every other
key (which all fall to the panel `handle_input` arm). -/
inductive KeyCode where
  | F (n : Nat)
  | Esc
  | Enter
  | Char (c : Char)
  | Other
deriving DecidableEq

/-- The panel-owned input behaviour invoked by the controller.  Each Rust
`handle_input` is a `&mut self` method of one panel receiving only the key
event, so it can touch nothing but that panel's own fields; likewise
`toggle_selected` receives only the selection sets and the loaded list.
The controller claims are proved for every choice of these functions. -/
structure Handlers where
  source_path_input : KeyCode → String × Nat → String × Nat
  output_file_input : KeyCode → String × Nat → String × Nat
  output_input : KeyCode → OutputDestination → OutputDestination
  filters_toggle :
    List SourceFile → List String → List String →
      List String × List String
  source_files_toggle :
    List SourceFile → List String → List String →
      List String × List String

/-- Embedding of `App::set_cursor_to_end` (`src/ui/mod.rs:392`). -/
def set_cursor_to_end (s : AppState) : AppState :=
  match s.focused_panel with
  | .SourcePath =>
      { s with source_path_cursor := s.source_path_value.length }
  | .OutputFile =>
      { s with output_file_cursor := s.output_file_value.length }
  | _ => s

/-- The default arm of the key match in `App::update`
(`src/ui/mod.rs:282`): route the key to the focused panel's
`handle_input`.  The Filters and SourceFiles panels own no state tracked
here, so their handlers leave the controller state unchanged. -/
def handle_input_route (h : Handlers) (key : KeyCode)
    (s : AppState) : AppState :=
  match s.focused_panel with
  | .SourcePath =>
      let v := h.source_path_input key
        (s.source_path_value, s.source_path_cursor)
      { s with source_path_value := v.1, source_path_cursor := v.2 }
  | .Filters => s
  | .SourceFiles => s
  | .Output => { s with destination := h.output_input key s.destination }
  | .OutputFile =>
      let v := h.output_file_input key
        (s.output_file_value, s.output_file_cursor)
      { s with output_file_value := v.1, output_file_cursor := v.2 }

/-- Embedding of `App::handle_enter` (`src/ui/mod.rs:311`).  In the
`SourceFiles` arm the panel title update is panel-internal and untracked;
the dispatcher is invoked on the current selection and its spawns are
appended to `spawned_tasks`. -/
def handle_enter (s : AppState) : AppState :=
  match s.focused_panel with
  | .SourceFiles =>
      let s1 :=
        { s with
          focused_panel :=
            FocusedPanel.next_panel FocusedPanel.SourceFiles s.destination }
      let r := start_token_count_for_selected_files s1.text_source.isSome
        s1.selected_files s1.loaded_files s1.file_token_status
      set_cursor_to_end
        { s1 with file_token_status := r.status,
                  spawned_tasks := s1.spawned_tasks ++ r.spawned }
  | .Output =>
      if s.destination = OutputDestination.Clipboard then
        if s.processing then s else { s with merge_needed := true }
      else
        set_cursor_to_end
          { s with
            focused_panel :=
              FocusedPanel.next_panel FocusedPanel.Output s.destination }
  | .OutputFile =>
      if s.processing then s else { s with merge_needed := true }
  | .SourcePath =>
      set_cursor_to_end
        { s with
          focused_panel :=
            FocusedPanel.next_panel FocusedPanel.SourcePath s.destination }
  | .Filters =>
      set_cursor_to_end
        { s with
          focused_panel :=
            FocusedPanel.next_panel FocusedPanel.Filters s.destination }

/-- The key `match` of `App::update` (`src/ui/mod.rs:225`), before the
dirty-on-focus-exit epilogue.  The guard chain on `F(n)` mirrors the Rust
arm order `F10, F1, F2, F3`, with every unmatched key falling to the
focused panel's `handle_input`. -/
def update_key (h : Handlers) (key : KeyCode) (s : AppState) : AppState :=
  match key with
  | .F n =>
      if n = 10 then { s with exit_requested := true }
      else if n = 1 then
        if s.processing then s else { s with reload_files_needed := true }
      else if n = 2 then
        if s.processing then s else { s with merge_needed := true }
      else if n = 3 then
        match s.focused_panel with
        | .SourcePath =>
            { s with source_path_value := "", source_path_cursor := 0 }
        | .OutputFile =>
            { s with output_file_value := "", output_file_cursor := 0 }
        | _ => s
      else handle_input_route h key s
  | .Esc =>
      if s.focused_panel = FocusedPanel.SourcePath then
        { s with exit_requested := true }
      else
        set_cursor_to_end
          { s with
            focused_panel :=
              FocusedPanel.prev_panel s.focused_panel s.destination }
  | .Enter => handle_enter s
  | .Char c =>
      if c = ' ' then
        match s.focused_panel with
        | .Filters =>
            let r := h.filters_toggle s.loaded_files
              s.selected_extensions s.selected_files
            { s with selected_extensions := r.1, selected_files := r.2 }
        | .SourceFiles =>
            let r := h.source_files_toggle s.loaded_files
              s.selected_extensions s.selected_files
            { s with selected_extensions := r.1, selected_files := r.2 }
        | _ => s
      else handle_input_route h key s
  | .Other => handle_input_route h key s

/-- Embedding of `App::update` (`src/ui/mod.rs:223`): the key match
followed by the dirty-on-focus-exit epilogue (`src/ui/mod.rs:302`), which
compares the focus before the match (`old_focused_panel`) with the focus
after it. -/
def update (h : Handlers) (key : KeyCode) (s : AppState) : AppState :=
  if s.focused_panel = FocusedPanel.SourcePath ∧
      (update_key h key s).focused_panel ≠ FocusedPanel.SourcePath ∧
      (update_key h key s).source_path_value ≠
        (update_key h key s).prev_source_path
  then
    { update_key h key s with
        reload_files_needed := true,
        prev_source_path := (update_key h key s).source_path_value }
  else update_key h key s

/-- Identity panel handlers, used to evaluate the controller on concrete
states. -/
def idHandlers : Handlers where
  source_path_input := fun _ v => v
  output_file_input := fun _ v => v
  output_input := fun _ d => d
  filters_toggle := fun _ x y => (x, y)
  source_files_toggle := fun _ x y => (x, y)

/-- A concrete controller state used to evaluate the theorems. -/
def sampleState : AppState where
  focused_panel := FocusedPanel.SourcePath
  source_path_value := "src"
  source_path_cursor := 3
  output_file_value := "out.txt"
  output_file_cursor := 7
  destination := OutputDestination.File
  loaded_files := [{ path := "a.rs" }]
  selected_extensions := ["rs"]
  selected_files := ["a.rs"]
  file_token_status := [("a.rs", TokenStatus.NotCounted)]
  processing := false
  text_source := some ()
  exit_requested := false
  reload_files_needed := false
  merge_needed := false
  prev_source_path := "src"
  spawned_tasks := []

/-- A processing state with focus on `SourcePath` and an edited path. -/
def procEditedState : AppState :=
  { sampleState with
      processing := true
      source_path_value := "new"
      prev_source_path := "old" }

/-- A concrete state with `processing` set. -/
def procState : AppState :=
  { sampleState with processing := true }

/-- A concrete state with an edited, not yet reloaded path value. -/
def editedState : AppState :=
  { sampleState with
      source_path_value := "new"
      prev_source_path := "old" }

/-- Claim C1, counterexample: with destination `Clipboard`, starting from
`Output`, `next_panel` reaches `SourcePath` and `prev_panel` then yields
`OutputFile`, not `Output`, so the round trip fails. -/
theorem next_prev_round_trip_cex :
    FocusedPanel.prev_panel
        (FocusedPanel.next_panel .Output .Clipboard) .Clipboard
      = .OutputFile ∧
    (FocusedPanel.OutputFile : FocusedPanel) ≠ .Output := by
  decide

/-- Claim C1 (amended): `prev` is the exact inverse of `next` at every
panel whenever the destination is not clipboard-only; when the destination
is `Clipboard`, `prev (next p) = p` holds exactly for `p ≠ Output`, and
`next (prev p) = p` holds exactly for `p ≠ OutputFile`. -/
theorem next_prev_round_trip (d : OutputDestination) (p : FocusedPanel) :
    (FocusedPanel.prev_panel (FocusedPanel.next_panel p d) d = p ↔
      ¬(d = OutputDestination.Clipboard ∧ p = FocusedPanel.Output)) ∧
    (FocusedPanel.next_panel (FocusedPanel.prev_panel p d) d = p ↔
      ¬(d = OutputDestination.Clipboard ∧ p = FocusedPanel.OutputFile)) := by
  cases d <;> cases p <;> simp_all [FocusedPanel.next_panel, FocusedPanel.prev_panel]

/-- Claim C2, counterexample: with destination `Clipboard`,
`prev_panel SourcePath` still returns `OutputFile`, so the `OutputFile`
node is not elided from the backward direction. -/
theorem clipboard_elision_cex :
    FocusedPanel.prev_panel .SourcePath .Clipboard = .OutputFile := by
  decide

/-- Claim C2 (amended): when the destination is clipboard-only the
`OutputFile` node is elided from the forward direction only: `next_panel`
never returns `OutputFile` and skips from `Output` straight to
`SourcePath`; backward, `prev_panel p` returns `OutputFile` exactly when
`p = SourcePath`, regardless of the destination. -/
theorem clipboard_elision (p : FocusedPanel) :
    FocusedPanel.next_panel p .Clipboard ≠ .OutputFile ∧
    FocusedPanel.next_panel .Output .Clipboard = .SourcePath ∧
    (FocusedPanel.prev_panel p .Clipboard = .OutputFile ↔
      p = FocusedPanel.SourcePath) := by
  cases p <;> simp_all [FocusedPanel.next_panel, FocusedPanel.prev_panel]

theorem setStatus_cons (e : String × TokenStatus) (rest : StatusMap)
    (q : String) (t : TokenStatus) :
    setStatus (e :: rest) q t =
      (if e.1 = q then (e.1, t) else e) :: setStatus rest q t := rfl

theorem statusLookup_setStatus (m : StatusMap) (q p : String)
    (t : TokenStatus) :
    statusLookup (setStatus m q t) p =
      if q = p then (statusLookup m p).map (fun _ => t)
      else statusLookup m p := by
  induction m with
  | nil => simp [setStatus, statusLookup]
  | cons e rest ih =>
      rw [setStatus_cons]
      by_cases hq : e.1 = q <;> by_cases hp : e.1 = p
      · have hqp : q = p := hq ▸ hp
        subst hqp
        rw [if_pos hq]
        simp [statusLookup, hq]
      · have hqp : ¬q = p := fun h => hp (h ▸ hq)
        rw [if_pos hq]
        simp [statusLookup, hp, hqp, ih]
      · have hqp : ¬q = p := fun h => hq (hp.trans h.symm)
        rw [if_neg hq]
        simp [statusLookup, hp, hqp]
      · rw [if_neg hq]
        simp [statusLookup, hp, ih]

theorem statusLookup_set_counting (m : StatusMap) (q p : String) :
    statusLookup (set_counting m q) p =
      if q = p then (statusLookup m p).map (fun _ => TokenStatus.Counting)
      else statusLookup m p :=
  statusLookup_setStatus m q p TokenStatus.Counting

theorem dispatchStep_lookup (loaded : List SourceFile)
    (acc : DispatchResult) (q p : String) :
    statusLookup (dispatchStep loaded acc q).status p =
      if q = p ∧ statusLookup acc.status p = some TokenStatus.NotCounted
      then some TokenStatus.Counting
      else statusLookup acc.status p := by
  by_cases hg : statusLookup acc.status q = some TokenStatus.NotCounted
  · have hstep : (dispatchStep loaded acc q).status =
        set_counting acc.status q := by
      unfold dispatchStep
      rw [if_pos hg]
      cases loaded.find? (fun f => f.path = q) <;> rfl
    rw [hstep, statusLookup_set_counting]
    by_cases hqp : q = p
    · subst hqp
      simp [hg]
    · simp [hqp]
  · have hstep : dispatchStep loaded acc q = acc := by
      unfold dispatchStep
      rw [if_neg hg]
    rw [hstep]
    by_cases hqp : q = p
    · subst hqp
      simp [hg]
    · simp [hqp]

theorem dispatchStep_spawned (loaded : List SourceFile)
    (acc : DispatchResult) (q : String) :
    (dispatchStep loaded acc q).spawned =
      if statusLookup acc.status q = some TokenStatus.NotCounted ∧
          (loaded.find? (fun f => f.path = q)).isSome
      then acc.spawned ++ [q]
      else acc.spawned := by
  by_cases hg : statusLookup acc.status q = some TokenStatus.NotCounted
  · unfold dispatchStep
    rw [if_pos hg]
    cases hf : loaded.find? (fun f => f.path = q) <;> simp [hg, hf]
  · unfold dispatchStep
    rw [if_neg hg]
    simp [hg]

theorem pathOcc_nil (p : String) : pathOcc p [] = 0 := rfl

theorem pathOcc_append (p : String) (l1 l2 : List String) :
    pathOcc p (l1 ++ l2) = pathOcc p l1 + pathOcc p l2 := by
  simp [pathOcc, List.filter_append]

theorem pathOcc_singleton (p q : String) :
    pathOcc p [q] = if q = p then 1 else 0 := by
  by_cases h : q = p <;> simp [pathOcc, h]

theorem foldl_dispatch_lookup_stable (loaded : List SourceFile)
    (sel : List String) (p : String) :
    ∀ acc : DispatchResult,
      statusLookup acc.status p ≠ some TokenStatus.NotCounted →
      statusLookup (sel.foldl (dispatchStep loaded) acc).status p =
        statusLookup acc.status p := by
  induction sel with
  | nil => intro acc _; rfl
  | cons q rest ih =>
      intro acc h
      have hstep : statusLookup (dispatchStep loaded acc q).status p =
          statusLookup acc.status p := by
        rw [dispatchStep_lookup, if_neg (fun hc => h hc.2)]
      rw [List.foldl_cons, ih _ (by rw [hstep]; exact h), hstep]

theorem foldl_dispatch_lookup_counting (loaded : List SourceFile)
    (sel : List String) (p : String) :
    ∀ acc : DispatchResult, p ∈ sel →
      statusLookup acc.status p = some TokenStatus.NotCounted →
      statusLookup (sel.foldl (dispatchStep loaded) acc).status p =
        some TokenStatus.Counting := by
  induction sel with
  | nil => intro acc hmem _; cases hmem
  | cons q rest ih =>
      intro acc hmem h
      rw [List.foldl_cons]
      by_cases hqp : q = p
      · subst hqp
        have hstep : statusLookup (dispatchStep loaded acc q).status q =
            some TokenStatus.Counting := by
          rw [dispatchStep_lookup, if_pos ⟨rfl, h⟩]
        rw [foldl_dispatch_lookup_stable loaded rest q _
              (by rw [hstep]; simp), hstep]
      · have hstep : statusLookup (dispatchStep loaded acc q).status p =
            statusLookup acc.status p := by
          rw [dispatchStep_lookup, if_neg (fun hc => hqp hc.1)]
        have hmem2 : p ∈ rest := by
          rcases List.mem_cons.mp hmem with h1 | h1
          · exact absurd h1.symm hqp
          · exact h1
        exact ih _ hmem2 (by rw [hstep]; exact h)

theorem foldl_dispatch_not_spawned (loaded : List SourceFile)
    (sel : List String) (p : String) :
    ∀ acc : DispatchResult,
      statusLookup acc.status p ≠ some TokenStatus.NotCounted →
      p ∉ acc.spawned →
      p ∉ (sel.foldl (dispatchStep loaded) acc).spawned := by
  induction sel with
  | nil => intro acc _ hsp; exact hsp
  | cons q rest ih =>
      intro acc h hsp
      rw [List.foldl_cons]
      have hlk : statusLookup (dispatchStep loaded acc q).status p =
          statusLookup acc.status p := by
        rw [dispatchStep_lookup, if_neg (fun hc => h hc.2)]
      exact ih _ (by rw [hlk]; exact h) (by
        rw [dispatchStep_spawned]
        by_cases hg : statusLookup acc.status q = some TokenStatus.NotCounted ∧
            (loaded.find? (fun f => f.path = q)).isSome
        · rw [if_pos hg]
          intro hmem
          rcases List.mem_append.mp hmem with h1 | h1
          · exact hsp h1
          · have h2 : p = q := List.mem_singleton.mp h1
            exact h (h2.symm ▸ hg.1)
        · rw [if_neg hg]; exact hsp)

theorem foldl_dispatch_occ_le (loaded : List SourceFile)
    (sel : List String) (p : String) :
    ∀ acc : DispatchResult,
      pathOcc p (sel.foldl (dispatchStep loaded) acc).spawned ≤
        pathOcc p acc.spawned +
          (if statusLookup acc.status p = some TokenStatus.NotCounted
           then 1 else 0) := by
  induction sel with
  | nil =>
      intro acc
      exact Nat.le_add_right _ _
  | cons q rest ih =>
      intro acc
      rw [List.foldl_cons]
      have hih := ih (dispatchStep loaded acc q)
      have hsp := dispatchStep_spawned loaded acc q
      have hlk := dispatchStep_lookup loaded acc q p
      by_cases hqp : q = p
      · subst hqp
        by_cases hnc : statusLookup acc.status q = some TokenStatus.NotCounted
        · rw [if_pos ⟨rfl, hnc⟩] at hlk
          have hocc : pathOcc q (dispatchStep loaded acc q).spawned ≤
              pathOcc q acc.spawned + 1 := by
            rw [hsp]
            by_cases hg : statusLookup acc.status q =
                  some TokenStatus.NotCounted ∧
                (loaded.find? (fun f => f.path = q)).isSome
            · rw [if_pos hg, pathOcc_append, pathOcc_singleton, if_pos rfl]
            · rw [if_neg hg]
              omega
          rw [hlk] at hih
          rw [if_neg (by simp)] at hih
          rw [if_pos hnc]
          omega
        · rw [if_neg (fun hc => hnc hc.2)] at hlk
          have hg : ¬(statusLookup acc.status q =
                some TokenStatus.NotCounted ∧
              (loaded.find? (fun f => f.path = q)).isSome) :=
            fun hc => hnc hc.1
          rw [if_neg hg] at hsp
          rw [hlk, hsp] at hih
          exact hih
      · rw [if_neg (fun hc => hqp hc.1)] at hlk
        have hocc : pathOcc p (dispatchStep loaded acc q).spawned =
            pathOcc p acc.spawned := by
          rw [hsp]
          by_cases hg : statusLookup acc.status q =
                some TokenStatus.NotCounted ∧
              (loaded.find? (fun f => f.path = q)).isSome
          · rw [if_pos hg, pathOcc_append, pathOcc_singleton, if_neg hqp]
            omega
          · rw [if_neg hg]
        rw [hlk, hocc] at hih
        exact hih

theorem foldl_dispatch_spawned_from_loaded (loaded : List SourceFile)
    (sel : List String) (x : String) :
    ∀ acc : DispatchResult,
      x ∈ (sel.foldl (dispatchStep loaded) acc).spawned →
      x ∈ acc.spawned ∨ ∃ f ∈ loaded, f.path = x := by
  induction sel with
  | nil => intro acc h; exact Or.inl h
  | cons q rest ih =>
      intro acc h
      rw [List.foldl_cons] at h
      rcases ih _ h with h1 | h1
      · rw [dispatchStep_spawned] at h1
        by_cases hg : statusLookup acc.status q = some TokenStatus.NotCounted ∧
            (loaded.find? (fun f => f.path = q)).isSome
        · rw [if_pos hg] at h1
          rcases List.mem_append.mp h1 with h2 | h2
          · exact Or.inl h2
          · have hxq : x = q := List.mem_singleton.mp h2
            subst hxq
            rcases Option.isSome_iff_exists.mp hg.2 with ⟨f, hf⟩
            refine Or.inr ⟨f, List.mem_of_find?_eq_some hf, ?_⟩
            have := List.find?_some hf
            simpa using this
        · rw [if_neg hg] at h1
          exact Or.inl h1
      · exact Or.inr h1

theorem statusLookup_set_count_result_ne (m : StatusMap) (q p : String)
    (res : Except String Nat) (h : q ≠ p) :
    statusLookup (set_count_result m q res) p = statusLookup m p := by
  unfold set_count_result
  by_cases hs : (statusLookup m q).isSome
  · rw [if_pos hs, statusLookup_setStatus, if_neg h]
  · rw [if_neg hs]

theorem set_count_result_absent (m : StatusMap) (p : String)
    (res : Except String Nat) (h : statusLookup m p = none) :
    set_count_result m p res = m := by
  unfold set_count_result
  rw [h]
  simp

theorem statusLookup_set_count_result_none (m : StatusMap) (q p : String)
    (res : Except String Nat) (h : statusLookup m p = none) :
    statusLookup (set_count_result m q res) p = none := by
  by_cases hqp : q = p
  · subst hqp
    rw [set_count_result_absent m q res h]
    exact h
  · rw [statusLookup_set_count_result_ne m q p res hqp]
    exact h

theorem process_cons (m : StatusMap) (msg : String × Except String Nat)
    (rest : List (String × Except String Nat)) :
    process_token_count_results m (msg :: rest) =
      process_token_count_results (set_count_result m msg.1 msg.2) rest :=
  rfl

theorem process_append (m : StatusMap)
    (l1 l2 : List (String × Except String Nat)) :
    process_token_count_results m (l1 ++ l2) =
      process_token_count_results (process_token_count_results m l1) l2 := by
  simp [process_token_count_results, List.foldl_append]

theorem process_lookup_none (msgs : List (String × Except String Nat)) :
    ∀ (m : StatusMap) (p : String), statusLookup m p = none →
      statusLookup (process_token_count_results m msgs) p = none := by
  induction msgs with
  | nil => intro m p h; exact h
  | cons msg rest ih =>
      intro m p h
      rw [process_cons]
      exact ih _ p (statusLookup_set_count_result_none _ _ _ _ h)

theorem process_lookup_stable (msgs : List (String × Except String Nat)) :
    ∀ (m : StatusMap) (p : String), (∀ msg ∈ msgs, msg.1 ≠ p) →
      statusLookup (process_token_count_results m msgs) p =
        statusLookup m p := by
  induction msgs with
  | nil => intro m p _; rfl
  | cons msg rest ih =>
      intro m p hall
      rw [process_cons,
          ih _ p (fun x hx => hall x (List.mem_cons_of_mem msg hx)),
          statusLookup_set_count_result_ne _ _ _ _
            (hall msg (List.mem_cons_self msg rest))]

/-- Claim C5: an aggregator message whose path is absent from the status
mapping (the loaded set) is dropped: removing it from any drained batch
changes neither the resulting status mapping nor the aggregate sum over
any selection.  Selection sets are not touched by the drain at all (its
embedding does not read or write them). -/
theorem stale_result_dropped (m : StatusMap) (p : String)
    (res : Except String Nat)
    (msgs1 msgs2 : List (String × Except String Nat))
    (sel : List String) (h : statusLookup m p = none) :
    process_token_count_results m (msgs1 ++ (p, res) :: msgs2) =
      process_token_count_results m (msgs1 ++ msgs2) ∧
    aggregateSum
        (process_token_count_results m (msgs1 ++ (p, res) :: msgs2)) sel =
      aggregateSum (process_token_count_results m (msgs1 ++ msgs2)) sel := by
  have h1 : statusLookup (process_token_count_results m msgs1) p = none :=
    process_lookup_none msgs1 m p h
  have key : process_token_count_results m (msgs1 ++ (p, res) :: msgs2) =
      process_token_count_results m (msgs1 ++ msgs2) := by
    rw [process_append, process_append, process_cons,
        set_count_result_absent _ _ _ h1]
  exact ⟨key, by rw [key]⟩

/-- Claim C5, witness: dropping the stale message for path `b` from a
concrete batch over a map loaded with only `a`. -/
theorem stale_result_dropped_witness :
    statusLookup [("a", TokenStatus.Counting)] "b" = none ∧
    (process_token_count_results [("a", TokenStatus.Counting)]
        ([("a", Except.ok 2)] ++ ("b", Except.ok 5) :: []) =
      process_token_count_results [("a", TokenStatus.Counting)]
        ([("a", Except.ok 2)] ++ []) ∧
    aggregateSum
        (process_token_count_results [("a", TokenStatus.Counting)]
          ([("a", Except.ok 2)] ++ ("b", Except.ok 5) :: [])) ["a"] =
      aggregateSum
        (process_token_count_results [("a", TokenStatus.Counting)]
          ([("a", Except.ok 2)] ++ [])) ["a"]) :=
  ⟨by decide,
   stale_result_dropped [("a", TokenStatus.Counting)] "b" (Except.ok 5)
     [("a", Except.ok 2)] [] ["a"] (by decide)⟩

/-- Claim C4: every background token-count task sends exactly one message,
tagged with its own path; a content-fetch failure or a tokenizer failure is
converted into an `Err(message)` channel message rather than propagated,
and the message depends only on that one task's own fetch and tokenizer
outcomes. -/
theorem token_count_task_total (p : String)
    (fetchResult : Except String String)
    (countFn : String → Except String Nat) :
    ∃ r : Except String Nat,
      tokenCountTask p fetchResult countFn = [(p, r)] ∧
      ((∃ e, fetchResult = Except.error e ∧ r = Except.error e) ∨
       (∃ content e, fetchResult = Except.ok content ∧
          countFn content = Except.error e ∧ r = Except.error e) ∨
       (∃ content n, fetchResult = Except.ok content ∧
          countFn content = Except.ok n ∧ r = Except.ok n)) := by
  cases fetchResult with
  | error e => exact ⟨Except.error e, rfl, Or.inl ⟨e, rfl, rfl⟩⟩
  | ok content =>
      cases hc : countFn content with
      | error e =>
          exact ⟨Except.error e, by simp [tokenCountTask, hc],
            Or.inr (Or.inl ⟨content, e, rfl, hc, rfl⟩)⟩
      | ok n =>
          exact ⟨Except.ok n, by simp [tokenCountTask, hc],
            Or.inr (Or.inr ⟨content, n, rfl, hc, rfl⟩)⟩

/-- Claim C3: with a text source available, one dispatch pass synchronously
marks every selected `NotCounted` path as `Counting` and spawns at most one
task for it; a second dispatch pass over the resulting statuses spawns no
task for that path and leaves its status at `Counting`. -/
theorem dispatch_idempotent (sel : List String) (loaded : List SourceFile)
    (st : StatusMap) (p : String) (hmem : p ∈ sel)
    (h : statusLookup st p = some TokenStatus.NotCounted) :
    statusLookup
        (start_token_count_for_selected_files true sel loaded st).status p =
      some TokenStatus.Counting ∧
    pathOcc p
        (start_token_count_for_selected_files true sel loaded st).spawned
      ≤ 1 ∧
    p ∉ (start_token_count_for_selected_files true sel loaded
          (start_token_count_for_selected_files true sel loaded
            st).status).spawned ∧
    statusLookup
        (start_token_count_for_selected_files true sel loaded
          (start_token_count_for_selected_files true sel loaded
            st).status).status p =
      some TokenStatus.Counting := by
  have hunf : ∀ m : StatusMap,
      start_token_count_for_selected_files true sel loaded m =
        sel.foldl (dispatchStep loaded) { status := m, spawned := [] } := by
    intro m
    rfl
  simp only [hunf]
  have h1 : statusLookup
      (sel.foldl (dispatchStep loaded)
        { status := st, spawned := [] }).status p =
      some TokenStatus.Counting :=
    foldl_dispatch_lookup_counting loaded sel p _ hmem h
  refine ⟨h1, ?_, ?_, ?_⟩
  · have h2 := foldl_dispatch_occ_le loaded sel p { status := st, spawned := [] }
    rw [if_pos h] at h2
    simpa [pathOcc_nil] using h2
  · exact foldl_dispatch_not_spawned loaded sel p _
      (by rw [h1]; simp) (List.not_mem_nil p)
  · rw [foldl_dispatch_lookup_stable loaded sel p _ (by rw [h1]; simp)]
    exact h1

/-- Claim C3, witness: one selected, loaded, not-yet-counted path `a`. -/
theorem dispatch_idempotent_witness :
    "a" ∈ ["a"] ∧
    statusLookup [("a", TokenStatus.NotCounted)] "a" =
      some TokenStatus.NotCounted ∧
    (statusLookup
        (start_token_count_for_selected_files true ["a"]
          [{ path := "a" }] [("a", TokenStatus.NotCounted)]).status "a" =
      some TokenStatus.Counting ∧
    pathOcc "a"
        (start_token_count_for_selected_files true ["a"]
          [{ path := "a" }] [("a", TokenStatus.NotCounted)]).spawned
      ≤ 1 ∧
    "a" ∉ (start_token_count_for_selected_files true ["a"]
          [{ path := "a" }]
          (start_token_count_for_selected_files true ["a"]
            [{ path := "a" }]
            [("a", TokenStatus.NotCounted)]).status).spawned ∧
    statusLookup
        (start_token_count_for_selected_files true ["a"]
          [{ path := "a" }]
          (start_token_count_for_selected_files true ["a"]
            [{ path := "a" }]
            [("a", TokenStatus.NotCounted)]).status).status "a" =
      some TokenStatus.Counting) :=
  ⟨by decide, by decide,
   dispatch_idempotent ["a"] [{ path := "a" }]
     [("a", TokenStatus.NotCounted)] "a" (by decide) (by decide)⟩

/-- Claim C10: a path selected with status `NotCounted` but with no
matching loaded file is still marked `Counting`, yet no task is spawned
for it, and draining any batch of messages originating from the spawned
tasks leaves it at `Counting` — it can never reach `Counted` or `Failed`
without a reload. -/
theorem dispatch_missing_file (sel : List String) (loaded : List SourceFile)
    (st : StatusMap) (p : String) (hmem : p ∈ sel)
    (h : statusLookup st p = some TokenStatus.NotCounted)
    (hnf : ∀ f ∈ loaded, f.path ≠ p) :
    statusLookup
        (start_token_count_for_selected_files true sel loaded st).status p =
      some TokenStatus.Counting ∧
    p ∉ (start_token_count_for_selected_files true sel loaded st).spawned ∧
    ∀ msgs : List (String × Except String Nat),
      (∀ msg ∈ msgs, msg.1 ∈
        (start_token_count_for_selected_files true sel loaded st).spawned) →
      statusLookup
          (process_token_count_results
            (start_token_count_for_selected_files true sel loaded st).status
            msgs) p =
        some TokenStatus.Counting := by
  have hunf : start_token_count_for_selected_files true sel loaded st =
      sel.foldl (dispatchStep loaded) { status := st, spawned := [] } := rfl
  simp only [hunf]
  have h1 : statusLookup
      (sel.foldl (dispatchStep loaded)
        { status := st, spawned := [] }).status p =
      some TokenStatus.Counting :=
    foldl_dispatch_lookup_counting loaded sel p _ hmem h
  have hns : p ∉ (sel.foldl (dispatchStep loaded)
      { status := st, spawned := [] }).spawned := by
    intro hmem2
    rcases foldl_dispatch_spawned_from_loaded loaded sel p _ hmem2 with
      h2 | ⟨f, hf, hfp⟩
    · exact List.not_mem_nil p h2
    · exact hnf f hf hfp
  refine ⟨h1, hns, ?_⟩
  intro msgs hall
  rw [process_lookup_stable msgs _ p
    (fun msg hm heq => hns (heq ▸ hall msg hm))]
  exact h1

/-- Claim C10, witness: path `b` selected and `NotCounted` while the loaded
list is empty. -/
theorem dispatch_missing_file_witness :
    "b" ∈ ["b"] ∧
    statusLookup [("b", TokenStatus.NotCounted)] "b" =
      some TokenStatus.NotCounted ∧
    (∀ f ∈ ([] : List SourceFile), f.path ≠ "b") ∧
    (statusLookup
        (start_token_count_for_selected_files true ["b"] []
          [("b", TokenStatus.NotCounted)]).status "b" =
      some TokenStatus.Counting ∧
    "b" ∉ (start_token_count_for_selected_files true ["b"] []
          [("b", TokenStatus.NotCounted)]).spawned ∧
    ∀ msgs : List (String × Except String Nat),
      (∀ msg ∈ msgs, msg.1 ∈
        (start_token_count_for_selected_files true ["b"] []
          [("b", TokenStatus.NotCounted)]).spawned) →
      statusLookup
          (process_token_count_results
            (start_token_count_for_selected_files true ["b"] []
              [("b", TokenStatus.NotCounted)]).status
            msgs) "b" =
        some TokenStatus.Counting) :=
  ⟨by decide, by decide, by simp,
   dispatch_missing_file ["b"] [] [("b", TokenStatus.NotCounted)] "b"
     (by decide) (by decide) (by simp)⟩

/-- Claim C6: a failed text-source construction leaves an empty loaded
list and no text source; a successful construction with a failed file
index leaves an empty loaded list but keeps the text source handle; in all
cases the rebuilt selected files and selected extensions refer only to
paths of the new loaded list. -/
theorem reload_error_handling (createResult : Except String Unit)
    (indexResult : Except String (List SourceFile)) (s : AppState) :
    ((∃ e, createResult = Except.error e) →
      (reload_files_immediate createResult indexResult s).loaded_files
          = [] ∧
      (reload_files_immediate createResult indexResult s).text_source
          = none) ∧
    ((∃ u, createResult = Except.ok u) →
      (∃ e, indexResult = Except.error e) →
      (reload_files_immediate createResult indexResult s).loaded_files
          = [] ∧
      (reload_files_immediate createResult indexResult s).text_source
          = some ()) ∧
    (∀ p ∈ (reload_files_immediate createResult indexResult s).selected_files,
      ∃ f ∈ (reload_files_immediate createResult indexResult s).loaded_files,
        f.path = p) ∧
    (∀ x ∈ (reload_files_immediate createResult
        indexResult s).selected_extensions,
      ∃ f ∈ (reload_files_immediate createResult indexResult s).loaded_files,
        pathExt f.path = x) := by
  refine ⟨?_, ?_, ?_, ?_⟩
  · rintro ⟨e, he⟩
    subst he
    exact ⟨rfl, rfl⟩
  · rintro ⟨u, hu⟩ ⟨e, he⟩
    subst hu
    subst he
    exact ⟨rfl, rfl⟩
  · intro p hp
    cases createResult with
    | error e =>
        simp [reload_files_immediate, init_values_files] at hp
    | ok u =>
        cases indexResult with
        | error e =>
            simp [reload_files_immediate, init_values_files] at hp
        | ok files =>
            simp only [reload_files_immediate, init_values_files,
              List.mem_filter, List.any_eq_true, decide_eq_true_eq] at hp
            rcases hp with ⟨_, f, hf, hfp⟩
            exact ⟨f, hf, hfp⟩
  · intro x hx
    cases createResult with
    | error e =>
        simp [reload_files_immediate, init_values_extensions] at hx
    | ok u =>
        cases indexResult with
        | error e =>
            simp [reload_files_immediate, init_values_extensions] at hx
        | ok files =>
            simp only [reload_files_immediate, init_values_extensions,
              List.mem_filter, List.any_eq_true, decide_eq_true_eq] at hx
            rcases hx with ⟨_, f, hf, hfp⟩
            exact ⟨f, hf, hfp⟩

/-- Claim C6, witness: a failed text-source construction, and a
successful construction with a failed index, on a concrete state. -/
theorem reload_error_handling_witness :
    ((reload_files_immediate (Except.error "boom") (Except.ok [])
        sampleState).loaded_files = [] ∧
     (reload_files_immediate (Except.error "boom") (Except.ok [])
        sampleState).text_source = none) ∧
    ((reload_files_immediate (Except.ok ()) (Except.error "io")
        sampleState).loaded_files = [] ∧
     (reload_files_immediate (Except.ok ()) (Except.error "io")
        sampleState).text_source = some ()) :=
  ⟨(reload_error_handling (Except.error "boom") (Except.ok [])
      sampleState).1 ⟨"boom", rfl⟩,
   (reload_error_handling (Except.ok ()) (Except.error "io")
      sampleState).2.1 ⟨(), rfl⟩ ⟨"io", rfl⟩⟩

/-- Claim C7: the clipboard copy is attempted exactly when the destination
is `FileAndClipboard` and the writer succeeded (so only after a successful
write), and the reported write result equals the writer's result whatever
the clipboard outcome — a clipboard failure neither undoes nor re-reports
the successful write. -/
theorem merge_clipboard_independent (writeResult : Except String String)
    (clipboardResult clipboardResult2 : Except String Unit) (s : AppState) :
    ((merge_immediate writeResult clipboardResult s).2.clipboard_attempted
        = true ↔
      s.destination = OutputDestination.FileAndClipboard ∧
        ∃ m, writeResult = Except.ok m) ∧
    (merge_immediate writeResult clipboardResult s).2.write_result
        = writeResult ∧
    (merge_immediate writeResult clipboardResult s).2.write_result =
      (merge_immediate writeResult clipboardResult2 s).2.write_result ∧
    (merge_immediate writeResult clipboardResult s).1 =
      (merge_immediate writeResult clipboardResult2 s).1 := by
  cases writeResult with
  | ok merged =>
      by_cases hd : s.destination = OutputDestination.FileAndClipboard <;>
        simp [merge_immediate, hd]
  | error e =>
      simp [merge_immediate]

theorem handle_input_route_spec (h : Handlers) (key : KeyCode)
    (s : AppState) :
    ∃ v c d w e, handle_input_route h key s =
      { s with source_path_value := v, source_path_cursor := c,
               destination := d, output_file_value := w,
               output_file_cursor := e } := by
  obtain ⟨fp, a2, a3, a4, a5, a6, a7, a8, a9, a10, a11, a12, a13, a14,
    a15, a16, a17⟩ := s
  cases fp <;> exact ⟨_, _, _, _, _, rfl⟩

theorem set_cursor_to_end_spec (s : AppState) :
    ∃ c e, set_cursor_to_end s =
      { s with source_path_cursor := c, output_file_cursor := e } := by
  obtain ⟨fp, a2, a3, a4, a5, a6, a7, a8, a9, a10, a11, a12, a13, a14,
    a15, a16, a17⟩ := s
  cases fp <;> exact ⟨_, _, rfl⟩

theorem route_focused (h : Handlers) (key : KeyCode) (s : AppState) :
    (handle_input_route h key s).focused_panel = s.focused_panel := by
  obtain ⟨v, c, d, w, e, hs⟩ := handle_input_route_spec h key s
  rw [hs]

theorem route_reload (h : Handlers) (key : KeyCode) (s : AppState) :
    (handle_input_route h key s).reload_files_needed =
      s.reload_files_needed := by
  obtain ⟨v, c, d, w, e, hs⟩ := handle_input_route_spec h key s
  rw [hs]

theorem route_merge (h : Handlers) (key : KeyCode) (s : AppState) :
    (handle_input_route h key s).merge_needed = s.merge_needed := by
  obtain ⟨v, c, d, w, e, hs⟩ := handle_input_route_spec h key s
  rw [hs]

theorem route_prev (h : Handlers) (key : KeyCode) (s : AppState) :
    (handle_input_route h key s).prev_source_path =
      s.prev_source_path := by
  obtain ⟨v, c, d, w, e, hs⟩ := handle_input_route_spec h key s
  rw [hs]

theorem cursor_focused (s : AppState) :
    (set_cursor_to_end s).focused_panel = s.focused_panel := by
  obtain ⟨c, e, hs⟩ := set_cursor_to_end_spec s
  rw [hs]

theorem cursor_reload (s : AppState) :
    (set_cursor_to_end s).reload_files_needed = s.reload_files_needed := by
  obtain ⟨c, e, hs⟩ := set_cursor_to_end_spec s
  rw [hs]

theorem cursor_merge (s : AppState) :
    (set_cursor_to_end s).merge_needed = s.merge_needed := by
  obtain ⟨c, e, hs⟩ := set_cursor_to_end_spec s
  rw [hs]

theorem cursor_prev (s : AppState) :
    (set_cursor_to_end s).prev_source_path = s.prev_source_path := by
  obtain ⟨c, e, hs⟩ := set_cursor_to_end_spec s
  rw [hs]

theorem cursor_value (s : AppState) :
    (set_cursor_to_end s).source_path_value = s.source_path_value := by
  obtain ⟨c, e, hs⟩ := set_cursor_to_end_spec s
  rw [hs]

theorem handle_enter_frame (s : AppState) :
    (handle_enter s).reload_files_needed = s.reload_files_needed ∧
    (handle_enter s).prev_source_path = s.prev_source_path ∧
    (handle_enter s).source_path_value = s.source_path_value := by
  unfold handle_enter
  cases hf : s.focused_panel
  case SourcePath => simp [cursor_reload, cursor_prev, cursor_value]
  case Filters => simp [cursor_reload, cursor_prev, cursor_value]
  case SourceFiles => simp [cursor_reload, cursor_prev, cursor_value]
  case Output =>
      split_ifs <;> simp [cursor_reload, cursor_prev, cursor_value]
  case OutputFile =>
      split_ifs <;> simp

theorem handle_enter_merge (s : AppState) (hp : s.processing = true) :
    (handle_enter s).merge_needed = s.merge_needed := by
  unfold handle_enter
  cases hf : s.focused_panel
  case SourcePath => simp [cursor_merge]
  case Filters => simp [cursor_merge]
  case SourceFiles => simp [cursor_merge]
  case Output => split_ifs <;> simp_all [cursor_merge]
  case OutputFile => split_ifs <;> simp_all

theorem handle_enter_focus_sp (s : AppState)
    (hf : s.focused_panel = FocusedPanel.SourcePath) :
    (handle_enter s).focused_panel = FocusedPanel.Filters := by
  unfold handle_enter
  rw [hf]
  simp [cursor_focused, FocusedPanel.next_panel]

theorem update_key_prev (h : Handlers) (key : KeyCode) (s : AppState) :
    (update_key h key s).prev_source_path = s.prev_source_path := by
  unfold update_key
  cases key with
  | F n =>
      by_cases h10 : n = 10
      · simp [h10]
      · by_cases h1 : n = 1
        · by_cases hp : s.processing <;> simp [h10, h1, hp]
        · by_cases h2 : n = 2
          · by_cases hp : s.processing <;> simp [h10, h1, h2, hp]
          · by_cases h3 : n = 3
            · cases hf : s.focused_panel <;> simp [h10, h1, h2, h3, hf]
            · simp [h10, h1, h2, h3, route_prev]
  | Esc =>
      by_cases hf : s.focused_panel = FocusedPanel.SourcePath <;>
        simp [hf, cursor_prev]
  | Enter => exact (handle_enter_frame s).2.1
  | Char c =>
      by_cases hc : c = ' '
      · cases hf : s.focused_panel <;> simp [hc, hf]
      · simp [hc, route_prev]
  | Other => simp [route_prev]

theorem update_key_reload_stable (h : Handlers) (key : KeyCode)
    (s : AppState) (hk : key ≠ KeyCode.F 1) :
    (update_key h key s).reload_files_needed = s.reload_files_needed := by
  unfold update_key
  cases key with
  | F n =>
      by_cases h10 : n = 10
      · simp [h10]
      · have h1 : ¬n = 1 := fun hn => hk (by rw [hn])
        by_cases h2 : n = 2
        · by_cases hp : s.processing <;> simp [h10, h1, h2, hp]
        · by_cases h3 : n = 3
          · cases hf : s.focused_panel <;> simp [h10, h1, h2, h3, hf]
          · simp [h10, h1, h2, h3, route_reload]
  | Esc =>
      by_cases hf : s.focused_panel = FocusedPanel.SourcePath <;>
        simp [hf, cursor_reload]
  | Enter => exact (handle_enter_frame s).1
  | Char c =>
      by_cases hc : c = ' '
      · cases hf : s.focused_panel <;> simp [hc, hf]
      · simp [hc, route_reload]
  | Other => simp [route_reload]

theorem update_key_reload_f1 (h : Handlers) (s : AppState)
    (hp : s.processing = true) :
    (update_key h (KeyCode.F 1) s).reload_files_needed =
      s.reload_files_needed := by
  unfold update_key
  simp [hp]

theorem update_key_merge (h : Handlers) (key : KeyCode) (s : AppState)
    (hp : s.processing = true) :
    (update_key h key s).merge_needed = s.merge_needed := by
  unfold update_key
  cases key with
  | F n =>
      by_cases h10 : n = 10
      · simp [h10]
      · by_cases h1 : n = 1
        · simp [h10, h1, hp]
        · by_cases h2 : n = 2
          · simp [h10, h1, h2, hp]
          · by_cases h3 : n = 3
            · cases hf : s.focused_panel <;> simp [h10, h1, h2, h3, hf]
            · simp [h10, h1, h2, h3, route_merge]
  | Esc =>
      by_cases hf : s.focused_panel = FocusedPanel.SourcePath <;>
        simp [hf, cursor_merge]
  | Enter => exact handle_enter_merge s hp
  | Char c =>
      by_cases hc : c = ' '
      · cases hf : s.focused_panel <;> simp [hc, hf]
      · simp [hc, route_merge]
  | Other => simp [route_merge]

theorem update_key_value_enter (h : Handlers) (s : AppState) :
    (update_key h KeyCode.Enter s).source_path_value =
      s.source_path_value :=
  (handle_enter_frame s).2.2

theorem update_key_focus_exit (h : Handlers) (key : KeyCode) (s : AppState)
    (hsp : s.focused_panel = FocusedPanel.SourcePath)
    (hne : (update_key h key s).focused_panel ≠ FocusedPanel.SourcePath) :
    key = KeyCode.Enter := by
  cases key with
  | Enter => rfl
  | F n =>
      exfalso
      apply hne
      unfold update_key
      by_cases h10 : n = 10
      · simp [h10, hsp]
      · by_cases h1 : n = 1
        · by_cases hp : s.processing <;> simp [h10, h1, hp, hsp]
        · by_cases h2 : n = 2
          · by_cases hp : s.processing <;> simp [h10, h1, h2, hp, hsp]
          · by_cases h3 : n = 3
            · simp [h10, h1, h2, h3, hsp]
            · simp [h10, h1, h2, h3, route_focused, hsp]
  | Esc =>
      exfalso
      apply hne
      unfold update_key
      rw [if_pos hsp]
      exact hsp
  | Char c =>
      exfalso
      apply hne
      unfold update_key
      by_cases hc : c = ' '
      · simp [hc, hsp]
      · simp [hc, route_focused, hsp]
  | Other =>
      exfalso
      apply hne
      unfold update_key
      simp [route_focused, hsp]

theorem update_focused (h : Handlers) (key : KeyCode) (s : AppState) :
    (update h key s).focused_panel =
      (update_key h key s).focused_panel := by
  unfold update
  split <;> rfl

theorem update_merge_eq (h : Handlers) (key : KeyCode) (s : AppState) :
    (update h key s).merge_needed = (update_key h key s).merge_needed := by
  unfold update
  split <;> rfl

/-- Claim C9, counterexample: with `processing = true`, focus on
`SourcePath` and an edited path value, the Enter key still sets
`reload_files_needed` through the dirty-on-focus-exit epilogue, which is
not gated by `processing`. -/
theorem processing_gate_cex :
    procEditedState.processing = true ∧
    procEditedState.reload_files_needed = false ∧
    (update idHandlers KeyCode.Enter
      procEditedState).reload_files_needed = true := by
  refine ⟨rfl, rfl, ?_⟩
  rfl

/-- Claim C9 (amended): while `processing` is true, no key event can
change `merge_needed`, and `reload_files_needed` can become set only
through the dirty-on-focus-exit rule — that is, only when the key is
Enter, focus is on `SourcePath`, and the path value differs from the
recorded one; the explicit F1/F2/Enter triggers are all refused. -/
theorem processing_gate (h : Handlers) (key : KeyCode) (s : AppState)
    (hp : s.processing = true) :
    (update h key s).merge_needed = s.merge_needed ∧
    ((update h key s).reload_files_needed = true →
      s.reload_files_needed = true ∨
      (s.focused_panel = FocusedPanel.SourcePath ∧ key = KeyCode.Enter ∧
        s.source_path_value ≠ s.prev_source_path)) := by
  constructor
  · rw [update_merge_eq]
    exact update_key_merge h key s hp
  · intro hr
    by_cases hc : s.focused_panel = FocusedPanel.SourcePath ∧
        (update_key h key s).focused_panel ≠ FocusedPanel.SourcePath ∧
        (update_key h key s).source_path_value ≠
          (update_key h key s).prev_source_path
    · have hk : key = KeyCode.Enter :=
        update_key_focus_exit h key s hc.1 hc.2.1
      subst hk
      refine Or.inr ⟨hc.1, rfl, ?_⟩
      have hv := update_key_value_enter h s
      have hpv := update_key_prev h KeyCode.Enter s
      have hne := hc.2.2
      rw [hv, hpv] at hne
      exact hne
    · unfold update at hr
      rw [if_neg hc] at hr
      by_cases hk : key = KeyCode.F 1
      · subst hk
        rw [update_key_reload_f1 h s hp] at hr
        exact Or.inl hr
      · rw [update_key_reload_stable h key s hk] at hr
        exact Or.inl hr

/-- Claim C9, witness: F1 while processing on a concrete state leaves both
flags unchanged. -/
theorem processing_gate_witness :
    procState.processing = true ∧
    ((update idHandlers (KeyCode.F 1) procState).merge_needed =
      procState.merge_needed ∧
    ((update idHandlers (KeyCode.F 1) procState).reload_files_needed
          = true →
      procState.reload_files_needed = true ∨
      (procState.focused_panel = FocusedPanel.SourcePath ∧
        KeyCode.F 1 = KeyCode.Enter ∧
        procState.source_path_value ≠ procState.prev_source_path))) :=
  ⟨rfl, processing_gate idHandlers (KeyCode.F 1) procState rfl⟩

/-- Claim C8, counterexample: F1 (with `processing` false) is a
focus-preserving keystroke inside `SourcePath` that does set
`reload_files_needed`. -/
theorem dirty_on_focus_exit_cex :
    (update idHandlers (KeyCode.F 1) sampleState).focused_panel =
      FocusedPanel.SourcePath ∧
    sampleState.reload_files_needed = false ∧
    (update idHandlers (KeyCode.F 1) sampleState).reload_files_needed
      = true :=
  ⟨rfl, rfl, rfl⟩

/-- Claim C8 (amended): whenever a key event moves focus off `SourcePath`
and the path value differs from the recorded one, `update` sets
`reload_files_needed` and records the new value; focus-preserving
keystrokes inside `SourcePath` other than the explicit F1 reload key never
change `reload_files_needed`. -/
theorem dirty_on_focus_exit (h : Handlers) (key : KeyCode) (s : AppState) :
    (s.focused_panel = FocusedPanel.SourcePath →
      (update h key s).focused_panel ≠ FocusedPanel.SourcePath →
      s.source_path_value ≠ s.prev_source_path →
      (update h key s).reload_files_needed = true ∧
      (update h key s).prev_source_path = s.source_path_value) ∧
    (s.focused_panel = FocusedPanel.SourcePath →
      (update h key s).focused_panel = FocusedPanel.SourcePath →
      key ≠ KeyCode.F 1 →
      (update h key s).reload_files_needed = s.reload_files_needed) := by
  constructor
  · intro hsp hne hv
    rw [update_focused] at hne
    have hk : key = KeyCode.Enter := update_key_focus_exit h key s hsp hne
    subst hk
    have hv1 := update_key_value_enter h s
    have hp1 := update_key_prev h KeyCode.Enter s
    have hcond : s.focused_panel = FocusedPanel.SourcePath ∧
        (update_key h KeyCode.Enter s).focused_panel ≠
          FocusedPanel.SourcePath ∧
        (update_key h KeyCode.Enter s).source_path_value ≠
          (update_key h KeyCode.Enter s).prev_source_path := by
      refine ⟨hsp, hne, ?_⟩
      rw [hv1, hp1]
      exact hv
    unfold update
    rw [if_pos hcond]
    exact ⟨rfl, hv1⟩
  · intro hsp heq hk
    rw [update_focused] at heq
    have hcond : ¬(s.focused_panel = FocusedPanel.SourcePath ∧
        (update_key h key s).focused_panel ≠ FocusedPanel.SourcePath ∧
        (update_key h key s).source_path_value ≠
          (update_key h key s).prev_source_path) := fun hc => hc.2.1 heq
    unfold update
    rw [if_neg hcond]
    exact update_key_reload_stable h key s hk

/-- Claim C8, witness: Enter moves focus off `SourcePath` with an edited
value and sets the flag; a plain character keystroke keeps focus and
leaves the flag alone. -/
theorem dirty_on_focus_exit_witness :
    ((update idHandlers KeyCode.Enter
        editedState).reload_files_needed = true ∧
     (update idHandlers KeyCode.Enter
        editedState).prev_source_path = "new") ∧
    (update idHandlers (KeyCode.Char 'x')
        sampleState).reload_files_needed =
      sampleState.reload_files_needed :=
  ⟨(dirty_on_focus_exit idHandlers KeyCode.Enter editedState).1
      rfl (by decide) (by decide),
   (dirty_on_focus_exit idHandlers (KeyCode.Char 'x') sampleState).2
      rfl (by decide) (by decide)⟩

end Aianvil
